import Mathlib

/-!
Verification development for the Work-Shot social output composition engine.

Shallow embedding of the social layer:
* `src/social/smartCrop.ts` — untrusted crop-advice validation (`parseAndValidate`,
  `validatePixelPoint`, `isPointInsideCrop`, `getSmartCrop` control flow);
* `src/social/composer.ts` — dimension-level semantics of `composeSocialImage`;
* `src/social/crossfade.ts` — pixel blending and frame/delay construction of
  `generateCrossfadeGif`;
* `src/social/index.ts` (`runSocial`) — orchestration over platforms, with an
  explicit trace of filesystem write events.

JavaScript numbers are modelled as exact rationals (`ℚ`); JSON values as an
inductive `JVal`.  Effectful collaborators (sharp decode, Gemini transport,
filesystem) are modelled as explicit environment records, and filesystem writes
as an event trace, so that control flow and write ordering are provable facts.
-/

namespace WorkShot

/-- JSON value, the result of `JSON.parse` on the model response text. -/
inductive JVal where
  | jnull : JVal
  | jbool (b : Bool) : JVal
  | jnum (q : ℚ) : JVal
  | jstr (s : String) : JVal
  | jarr (elems : List JVal) : JVal
  | jobj (fields : List (String × JVal)) : JVal
  deriving Repr

/-- JavaScript property access `obj[key]`: `none` models `undefined`
(missing field, or access on a non-object). -/
def JVal.getField : JVal → String → Option JVal
  | JVal.jobj fields, key => fields.lookup key
  | _, _ => none

/-- JavaScript truthiness of a JSON value. -/
def JVal.truthy : JVal → Bool
  | JVal.jnull => false
  | JVal.jbool b => b
  | JVal.jnum q => decide (q ≠ 0)
  | JVal.jstr s => decide (s ≠ "")
  | JVal.jarr _ => true
  | JVal.jobj _ => true

/-- JavaScript `typeof v === "object"` for a JSON value
(`null` and arrays are objects in JavaScript). -/
def JVal.isObjType : JVal → Bool
  | JVal.jnull => true
  | JVal.jarr _ => true
  | JVal.jobj _ => true
  | _ => false

/-- Crop region from `smartCrop.ts` (`CropRegion`): validated fields are
non-negative integers, kept as `ℤ` here. -/
structure CropRegion where
  left : ℤ
  top : ℤ
  width : ℤ
  height : ℤ
  deriving DecidableEq, Repr

/-- Pixel coordinate from `smartCrop.ts` (`PixelPoint`). -/
structure PixelPoint where
  x : ℤ
  y : ℤ
  deriving DecidableEq, Repr

/-- Validated smart-crop result (`SmartCropResult` in `smartCrop.ts`). -/
structure SmartCropResult where
  before : CropRegion
  after : CropRegion
  beforeTrunkBase : Option PixelPoint
  afterTrunkBase : Option PixelPoint
  reasoning : String
  deriving DecidableEq, Repr

/-- One field check from the `parseAndValidate` loop
`typeof val !== "number" || !Number.isInteger(val) || val < 0`:
returns the field's integer value when it is a non-negative integer number. -/
def getIntField (crop : JVal) (key : String) : Option ℤ :=
  match crop.getField key with
  | some (JVal.jnum q) => if q.den = 1 ∧ 0 ≤ q then some q.num else none
  | _ => none

/-- The `parseAndValidate` field loop over `left/top/width/height` for one
crop object: all four fields must be non-negative integer numbers. -/
def validateCropFields (crop : JVal) : Option CropRegion := do
  let l ← getIntField crop "left"
  let t ← getIntField crop "top"
  let w ← getIntField crop "width"
  let h ← getIntField crop "height"
  pure ⟨l, t, w, h⟩

/-- One coordinate check from `validatePixelPoint`:
`typeof x !== "number" || !Number.isInteger(x) || x < 0 || x >= maxX`. -/
def checkCoord (v : Option JVal) (maxv : ℤ) : Option ℤ :=
  match v with
  | some (JVal.jnum q) => if q.den = 1 ∧ 0 ≤ q ∧ q < (maxv : ℚ) then some q.num else none
  | _ => none

/-- `validatePixelPoint` from `smartCrop.ts`: a truthy object with integer,
non-negative coordinates strictly below the given bounds. -/
def validatePixelPoint (point : JVal) (maxX maxY : ℤ) : Option PixelPoint :=
  if point.truthy = false ∨ point.isObjType = false then none
  else do
    let x ← checkCoord (point.getField "x") maxX
    let y ← checkCoord (point.getField "y") maxY
    pure ⟨x, y⟩

/-- `isPointInsideCrop` from `smartCrop.ts`: half-open containment
(`x ∈ [left, left+width)`, `y ∈ [top, top+height)`). -/
def isPointInsideCrop (point : PixelPoint) (crop : CropRegion) : Bool :=
  decide (crop.left ≤ point.x ∧ point.x < crop.left + crop.width ∧
          crop.top ≤ point.y ∧ point.y < crop.top + crop.height)

/-- The optional trunk-base anchor handling in `parseAndValidate`:
absent field is fine; a present field must be a valid pixel point lying inside
the paired crop rectangle, otherwise the entire response is rejected. -/
def checkAnchor (fieldVal : Option JVal) (maxX maxY : ℤ) (crop : CropRegion) :
    Option (Option PixelPoint) :=
  match fieldVal with
  | none => some none
  | some v =>
    match validatePixelPoint v maxX maxY with
    | none => none
    | some pt => if isPointInsideCrop pt crop then some (some pt) else none

/-- `parseAndValidate` from `smartCrop.ts`, lines 274–348, starting from the
parsed JSON value (`none` models a failed regex extraction or `JSON.parse`
throw).  Returns the validated result or `none` (TypeScript `null`). -/
def parseAndValidate (parsed : Option JVal) (bw bh aw ah pw ph : ℤ) :
    Option SmartCropResult :=
  match parsed with
  | none => none
  | some p =>
    match p.getField "before", p.getField "after" with
    | some bc, some ac =>
      if bc.truthy = false ∨ ac.truthy = false then none
      else
        match validateCropFields bc, validateCropFields ac with
        | some bcr, some acr =>
          if bcr.width ≠ pw ∨ bcr.height ≠ ph then none
          else if acr.width ≠ pw ∨ acr.height ≠ ph then none
          else if bcr.left + bcr.width > bw ∨ bcr.top + bcr.height > bh then none
          else if acr.left + acr.width > aw ∨ acr.top + acr.height > ah then none
          else
            match checkAnchor (p.getField "before_trunk_base") bw bh bcr,
                  checkAnchor (p.getField "after_trunk_base") aw ah acr with
            | some bAnchor, some aAnchor =>
              some { before := bcr
                     after := acr
                     beforeTrunkBase := bAnchor
                     afterTrunkBase := aAnchor
                     reasoning :=
                       match p.getField "reasoning" with
                       | some (JVal.jstr s) => s
                       | _ => "" }
            | _, _ => none
        | _, _ => none
    | _, _ => none

/-! ### Crossfade (`src/social/crossfade.ts`) -/

/-- `CrossfadeOptions` from `crossfade.ts`. -/
structure CrossfadeOptions where
  frameCount : ℕ
  frameDelay : ℕ
  holdBefore : ℕ
  holdAfter : ℕ
  outputWidth : ℕ
  deriving DecidableEq, Repr

/-- `CROSSFADE_DEFAULTS` from `crossfade.ts`. -/
def CROSSFADE_DEFAULTS : CrossfadeOptions :=
  { frameCount := 20
    frameDelay := 80
    holdBefore := 1500
    holdAfter := 6000
    outputWidth := 720 }

/-- One blended channel value:
`blended[j] = Math.round(beforeData[j] * (1 - alpha) + afterData[j] * alpha)`
with `alpha = i / (frameCount + 1)`; the store into the `Uint8Array`-backed
buffer reduces the integer modulo 256. -/
def blendChannel (b a i frameCount : ℕ) : ℕ :=
  let alpha : ℚ := (i : ℚ) / ((frameCount : ℚ) + 1)
  ((round ((b : ℚ) * (1 - alpha) + (a : ℚ) * alpha)) % 256).toNat

/-- The per-byte blend loop of one transition frame (the two raw buffers have
equal length by construction: the after image is fill-resized to the before
image's exact dimensions). -/
def blendBuffers (beforeData afterData : List ℕ) (i frameCount : ℕ) : List ℕ :=
  List.zipWith (fun b a => blendChannel b a i frameCount) beforeData afterData

/-- The frame sequence pushed onto `sharpFrames` in `generateCrossfadeGif`:
one held before frame, `frameCount` blended frames for `i = 1..frameCount`,
one held after frame. -/
def buildFrames (beforeData afterData : List ℕ) (frameCount : ℕ) : List (List ℕ) :=
  [beforeData] ++
    (List.range frameCount).map (fun k => blendBuffers beforeData afterData (k + 1) frameCount) ++
    [afterData]

/-- The per-frame delay list pushed onto `delays` in `generateCrossfadeGif`. -/
def buildDelays (opts : CrossfadeOptions) : List ℕ :=
  [opts.holdBefore] ++ List.replicate opts.frameCount opts.frameDelay ++ [opts.holdAfter]

/-- The fallback duration computation of `generateCrossfadeGif` (line 167):
`opts.holdBefore + opts.holdAfter + opts.frameCount * opts.frameDelay`. -/
def requestedDurationMs (opts : CrossfadeOptions) : ℕ :=
  opts.holdBefore + opts.holdAfter + opts.frameCount * opts.frameDelay

/-! ### Platform specs (`src/social/types.ts`, platform adapters) -/

/-- Image dimensions. -/
structure Dims where
  width : ℕ
  height : ℕ
  deriving DecidableEq, Repr

/-- `Layout` from `src/contracts/types.ts`: `"side-by-side" | "stacked"`. -/
inductive Layout where
  | sideBySide : Layout
  | stacked : Layout
  deriving DecidableEq, Repr

/-- Output encoding format: `"jpeg" | "png"`. -/
inductive Format where
  | jpeg : Format
  | png : Format
  deriving DecidableEq, Repr

/-- Hashtag policy: `"none" | "inline" | "block"`. -/
inductive HashtagPolicy where
  | noneTag : HashtagPolicy
  | inlineTag : HashtagPolicy
  | blockTag : HashtagPolicy
  deriving DecidableEq, Repr

/-- `ImageSpec` from `src/social/types.ts`. -/
structure ImageSpec where
  width : ℕ
  height : ℕ
  format : Format
  quality : ℕ
  maxFileSizeBytes : ℕ
  deriving DecidableEq, Repr

/-- `CaptionSpec` from `src/social/types.ts`. -/
structure CaptionSpec where
  maxLength : ℕ
  hashtags : HashtagPolicy
  deriving DecidableEq, Repr

/-- `PlatformSpec` from `src/social/types.ts`. -/
structure PlatformSpec where
  name : String
  imageSpec : ImageSpec
  captionSpec : CaptionSpec
  layout : Layout
  deriving DecidableEq, Repr

/-- `NEXTDOOR_SPEC` from the Nextdoor platform adapter. -/
def NEXTDOOR_SPEC : PlatformSpec :=
  { name := "nextdoor"
    imageSpec :=
      { width := 1200
        height := 675
        format := Format.jpeg
        quality := 90
        maxFileSizeBytes := 10 * 1024 * 1024 }
    captionSpec := { maxLength := 8192, hashtags := HashtagPolicy.noneTag }
    layout := Layout.sideBySide }

/-- `FACEBOOK_SPEC` from the Facebook platform adapter. -/
def FACEBOOK_SPEC : PlatformSpec :=
  { name := "facebook"
    imageSpec :=
      { width := 1080
        height := 1350
        format := Format.jpeg
        quality := 90
        maxFileSizeBytes := 10 * 1024 * 1024 }
    captionSpec := { maxLength := 8192, hashtags := HashtagPolicy.noneTag }
    layout := Layout.stacked }

/-- Modelled from the spec: the registry module (`getAdapter`, §4.1
PlatformRegistry) is not among the provided sources; modelled as the closed
mapping over the two adapters defined in the source tree, with `none` for an
unknown name (the TypeScript `getAdapter` throws `UnknownPlatform`). -/
def getAdapterSpec (name : String) : Option PlatformSpec :=
  if name = "nextdoor" then some NEXTDOOR_SPEC
  else if name = "facebook" then some FACEBOOK_SPEC
  else none

/-! ### Compositor (`src/social/composer.ts`), dimension-level semantics -/

/-- `LOGO_WIDTH_FRACTION` from `composer.ts`. -/
def LOGO_WIDTH_FRACTION : ℚ := 1 / 10

/-- `LOGO_MARGIN` from `composer.ts`. -/
def LOGO_MARGIN : ℤ := 16

/-- sharp `.extract` dimension semantics: the region must have positive size
and lie inside the image, else sharp throws (bad extract area). -/
def extractDims (src : Dims) (c : CropRegion) : Except String Dims :=
  if 0 ≤ c.left ∧ 0 ≤ c.top ∧ 0 < c.width ∧ 0 < c.height ∧
     c.left + c.width ≤ (src.width : ℤ) ∧ c.top + c.height ≤ (src.height : ℤ) then
    Except.ok ⟨c.width.toNat, c.height.toNat⟩
  else Except.error "extract_area: bad extract area"

/-- sharp `.resize(w, h)` dimension semantics (both the plain resize applied
after `.extract` and the cover-fit fallback fill the requested size exactly). -/
def resizeDims (_src : Dims) (w h : ℕ) : Dims :=
  ⟨w, h⟩

/-- sharp `.composite` dimension semantics for a single overlay: the overlay
must lie fully on the base at a non-negative offset, else sharp throws;
on success the base dimensions are unchanged. -/
def compositeOne (base overlay : Dims) (left top : ℤ) : Except String Dims :=
  if 0 ≤ left ∧ 0 ≤ top ∧ left + (overlay.width : ℤ) ≤ (base.width : ℤ) ∧
     top + (overlay.height : ℤ) ≤ (base.height : ℤ) then
    Except.ok base
  else Except.error "composite: image to composite must fit on the base"

/-- One overlay of the final `composite` call: overlay dimensions and offset. -/
structure PlacedOverlay where
  dims : Dims
  left : ℤ
  top : ℤ
  deriving DecidableEq, Repr

/-- Outcome of `composeSocialImage`: the returned `width`/`height` (from
`outputInfo`) together with the canvas dimensions, derived panel size and the
three overlay placements of the final `composite` call. -/
structure ComposeOutcome where
  width : ℕ
  height : ℕ
  canvas : Dims
  panelWidth : ℕ
  panelHeight : ℕ
  beforePlacement : PlacedOverlay
  afterPlacement : PlacedOverlay
  logoPlacement : PlacedOverlay
  deriving DecidableEq, Repr

/-- `composeSocialImage` from `composer.ts`, at the level of dimensions and
placements.  `beforeDims`/`afterDims` are the decoded source dimensions,
`logoDims` the decoded logo asset dimensions.  Decode failures of the sources
are raised by the callers of this dimension-level semantics; geometric
failures (bad extract area, overlay misfit) are the `Except.error` cases. -/
def composeSocialImage (beforeDims afterDims logoDims : Dims)
    (spec : PlatformSpec) (smartCrop : Option SmartCropResult) :
    Except String ComposeOutcome := do
  let targetWidth := spec.imageSpec.width
  let targetHeight := spec.imageSpec.height
  let (panelWidth, panelHeight) :=
    match spec.layout with
    | Layout.sideBySide => (targetWidth / 2, targetHeight)
    | Layout.stacked => (targetWidth, targetHeight / 2)
  let beforeBuffer ←
    match smartCrop with
    | some sc => do
      let extracted ← extractDims beforeDims sc.before
      pure (resizeDims extracted panelWidth panelHeight)
    | none => pure (resizeDims beforeDims panelWidth panelHeight)
  let afterBuffer ←
    match smartCrop with
    | some sc => do
      let extracted ← extractDims afterDims sc.after
      pure (resizeDims extracted panelWidth panelHeight)
    | none => pure (resizeDims afterDims panelWidth panelHeight)
  let labelDims : Dims := ⟨panelWidth, panelHeight⟩
  let beforeWithLabel ← compositeOne beforeBuffer labelDims 0 0
  let afterWithLabel ← compositeOne afterBuffer labelDims 0 0
  let (beforeTop, beforeLeft, afterTop, afterLeft) :=
    match spec.layout with
    | Layout.sideBySide => ((0 : ℤ), (0 : ℤ), (0 : ℤ), (panelWidth : ℤ))
    | Layout.stacked => ((0 : ℤ), (0 : ℤ), (panelHeight : ℤ), (0 : ℤ))
  let logoTargetWidth := (round ((targetWidth : ℚ) * LOGO_WIDTH_FRACTION)).toNat
  let logoW := logoTargetWidth
  let logoH :=
    max 1 (round ((logoDims.height : ℚ) * (logoTargetWidth : ℚ) / (logoDims.width : ℚ))).toNat
  let logoOverlay : Dims := ⟨logoW, logoH⟩
  let logoTop : ℤ := (targetHeight : ℤ) - (logoH : ℤ) - LOGO_MARGIN
  let logoLeft : ℤ := LOGO_MARGIN
  let canvas : Dims := ⟨targetWidth, targetHeight⟩
  let c1 ← compositeOne canvas beforeWithLabel beforeLeft beforeTop
  let c2 ← compositeOne c1 afterWithLabel afterLeft afterTop
  let c3 ← compositeOne c2 logoOverlay logoLeft logoTop
  pure { width := c3.width
         height := c3.height
         canvas := canvas
         panelWidth := panelWidth
         panelHeight := panelHeight
         beforePlacement := ⟨beforeWithLabel, beforeLeft, beforeTop⟩
         afterPlacement := ⟨afterWithLabel, afterLeft, afterTop⟩
         logoPlacement := ⟨logoOverlay, logoLeft, logoTop⟩ }

/-- The panel width derivation (`runSocial`, social entry point lines 156–158):
side-by-side halves the target width. -/
def panelWidthOf (spec : PlatformSpec) : ℕ :=
  match spec.layout with
  | Layout.sideBySide => spec.imageSpec.width / 2
  | Layout.stacked => spec.imageSpec.width

/-- The panel height derivation (`runSocial`, social entry point lines
159–161): stacked halves the target height. -/
def panelHeightOf (spec : PlatformSpec) : ℕ :=
  match spec.layout with
  | Layout.sideBySide => spec.imageSpec.height
  | Layout.stacked => spec.imageSpec.height / 2

/-- The outcome of composing 1200×900 and 1000×800 sources against the
Nextdoor spec with the center-crop fallback and a 100×50 logo asset. -/
def composeSampleOutcome : ComposeOutcome :=
  { width := 1200
    height := 675
    canvas := ⟨1200, 675⟩
    panelWidth := 600
    panelHeight := 675
    beforePlacement := ⟨⟨600, 675⟩, 0, 0⟩
    afterPlacement := ⟨⟨600, 675⟩, 600, 0⟩
    logoPlacement := ⟨⟨120, 60⟩, 16, 599⟩ }

/-- The outcome of composing the same sources against the stacked Facebook
spec with the center-crop fallback and a 100×50 logo asset. -/
def composeSampleStacked : ComposeOutcome :=
  { width := 1080
    height := 1350
    canvas := ⟨1080, 1350⟩
    panelWidth := 1080
    panelHeight := 675
    beforePlacement := ⟨⟨1080, 675⟩, 0, 0⟩
    afterPlacement := ⟨⟨1080, 675⟩, 0, 675⟩
    logoPlacement := ⟨⟨108, 54⟩, 16, 1280⟩ }

/-! ### Smart-crop driver (`getSmartCrop`) -/

/-- Environment of one `getSmartCrop` call: the configuration and the
outcomes of its effectful collaborators.  `geminiOutcome` is the Gemini call
under timeout: `error` models a timeout, transport error or thrown exception;
`ok parsed` carries the JSON extracted from the response text (`none` when no
JSON object could be extracted or `JSON.parse` threw). -/
structure SmartCropEnv where
  apiKey : Option String
  genaiAvailable : Bool
  beforeMeta : Except String Dims
  afterMeta : Except String Dims
  geminiOutcome : Except String (Option JVal)

/-- `getSmartCrop` from `smartCrop.ts`: the full fallback control flow.  Every
failure path of the TypeScript function resolves to `null` (the surrounding
`try`/`catch` turns thrown errors into `null`), so the embedding is a total
function into `Option`. -/
def getSmartCrop (env : SmartCropEnv) (panelWidth panelHeight : ℕ) :
    Option SmartCropResult :=
  match env.apiKey with
  | none => none
  | some _ =>
    if env.genaiAvailable = false then none
    else
      match env.beforeMeta, env.afterMeta with
      | Except.ok bdims, Except.ok adims =>
        if bdims.width < panelWidth ∨ bdims.height < panelHeight ∨
           adims.width < panelWidth ∨ adims.height < panelHeight then none
        else
          match env.geminiOutcome with
          | Except.error _ => none
          | Except.ok parsed =>
            parseAndValidate parsed (bdims.width : ℤ) (bdims.height : ℤ)
              (adims.width : ℤ) (adims.height : ℤ) (panelWidth : ℤ) (panelHeight : ℤ)
      | _, _ => none

/-! ### Concrete crop-advice responses (test fixtures for the validator) -/

/-- JSON literal for a crop object with the four geometry fields. -/
def cropJson (l t w h : ℚ) : JVal :=
  JVal.jobj [("left", JVal.jnum l), ("top", JVal.jnum t),
             ("width", JVal.jnum w), ("height", JVal.jnum h)]

/-- JSON literal for a pixel-point object. -/
def pointJson (x y : ℚ) : JVal :=
  JVal.jobj [("x", JVal.jnum x), ("y", JVal.jnum y)]

/-- A well-formed crop-advice response without anchors, for source images
1200×900 and 1000×800 and panel 600×675. -/
def sampleCropResp : JVal :=
  JVal.jobj [("before", cropJson 100 50 600 675),
             ("after", cropJson 0 0 600 675),
             ("reasoning", JVal.jstr "aligned")]

/-- The validated result of `sampleCropResp`. -/
def sampleCropResult : SmartCropResult :=
  { before := ⟨100, 50, 600, 675⟩
    after := ⟨0, 0, 600, 675⟩
    beforeTrunkBase := none
    afterTrunkBase := none
    reasoning := "aligned" }

/-- A response whose anchors sit exactly at the top-left corner of their
paired crop rectangles (inclusive lower bound of the half-open interval). -/
def cornerAnchorResp : JVal :=
  JVal.jobj [("before", cropJson 100 50 600 675),
             ("after", cropJson 0 0 600 675),
             ("before_trunk_base", pointJson 100 50),
             ("after_trunk_base", pointJson 0 0),
             ("reasoning", JVal.jstr "corner")]

/-- The validated result of `cornerAnchorResp`. -/
def cornerAnchorResult : SmartCropResult :=
  { before := ⟨100, 50, 600, 675⟩
    after := ⟨0, 0, 600, 675⟩
    beforeTrunkBase := some ⟨100, 50⟩
    afterTrunkBase := some ⟨0, 0⟩
    reasoning := "corner" }

/-- Like `cornerAnchorResp`, but the before anchor sits at
`x = left + width` (700), inside the 1200-wide source image yet on the
exclusive upper edge of the crop rectangle. -/
def edgeAnchorRespX : JVal :=
  JVal.jobj [("before", cropJson 100 50 600 675),
             ("after", cropJson 0 0 600 675),
             ("before_trunk_base", pointJson 700 50),
             ("after_trunk_base", pointJson 0 0),
             ("reasoning", JVal.jstr "edge-x")]

/-- Like `cornerAnchorResp`, but the before anchor sits at
`y = top + height` (725), inside the 900-tall source image yet on the
exclusive upper edge of the crop rectangle. -/
def edgeAnchorRespY : JVal :=
  JVal.jobj [("before", cropJson 100 50 600 675),
             ("after", cropJson 0 0 600 675),
             ("before_trunk_base", pointJson 100 725),
             ("after_trunk_base", pointJson 0 0),
             ("reasoning", JVal.jstr "edge-y")]

/-! ### Output orchestrator (`runSocial`, social layer entry point) -/

/-- One media pair of the upstream R1 manifest. -/
structure MediaPair where
  pairId : String
  before : String
  after : String
  mediaType : String
  deriving DecidableEq, Repr

/-- `inputs` block of the R1 manifest. -/
structure R1Inputs where
  mediaPairs : List MediaPair
  deriving DecidableEq, Repr

/-- Minimal R1 manifest shape read by `runSocial`. -/
structure R1Manifest where
  jobId : String
  inputs : R1Inputs
  deriving DecidableEq, Repr

/-- Result of `composeSocialImage` as consumed by `runSocial`. -/
structure ImageResult where
  width : ℕ
  height : ℕ
  sizeBytes : ℕ
  deriving DecidableEq, Repr

/-- Result of `generateCrossfadeGif` as consumed by `runSocial`. -/
structure GifResult where
  sizeBytes : ℕ
  frameCount : ℕ
  durationMs : ℕ
  width : ℕ
  height : ℕ
  deriving DecidableEq, Repr

/-- `SocialOutput` from `src/social/types.ts`. -/
structure SocialOutput where
  platform : String
  imagePath : String
  captionPath : String
  imageWidth : ℕ
  imageHeight : ℕ
  imageSizeBytes : ℕ
  captionLength : ℕ
  transition : Option GifResult
  deriving DecidableEq, Repr

/-- Filesystem write events performed by `runSocial`, in program order.
`writeManifest`'s flag records whether the manifest has a transition block. -/
inductive FsEvent where
  | mkdirEvent (dir : String) : FsEvent
  | writeImage (platform : String) : FsEvent
  | writeCaption (platform : String) : FsEvent
  | writeGif (platform : String) : FsEvent
  | writeManifest (platform : String) (hasTransition : Bool) : FsEvent
  deriving DecidableEq, Repr

/-- `path.resolve(dir, name)` / `path.join(dir, name)` for the forward-slash
relative paths used by the social layer. -/
def joinPath (dir name : String) : String :=
  dir ++ "/" ++ name

/-- Environment of one `runSocial` call: parsed upstream manifest (`none` when
`output/manifest.json` is missing), filesystem predicates, the path-containment
collaborator, the platform registry, and the outcomes of the per-platform
collaborator calls (smart crop, compose, caption, crossfade). -/
structure SocialEnv where
  r1Manifest : Option R1Manifest
  fileExists : String → Bool
  containedIn : String → Bool
  adapters : String → Option PlatformSpec
  smartCropFor : String → Option SmartCropResult
  composeFor : String → String → String → Option SmartCropResult → Except String ImageResult
  captionFor : String → String
  gifEnabled : Bool
  gifFor : String → String → Option GifResult

/-- The body of the per-platform loop of `runSocial`: adapter lookup, platform
directory creation, smart crop, compose, caption write, optional crossfade,
manifest write.  Returns the write events of this iteration together with the
iteration's outcome; a thrown error aborts the iteration after the events
already performed. -/
def processPlatform (env : SocialEnv) (socialDir beforePath afterPath : String)
    (platformName : String) : List FsEvent × Except String SocialOutput :=
  match env.adapters platformName with
  | none => ([], Except.error ("Unknown platform: " ++ platformName))
  | some spec =>
    let platformDir := joinPath socialDir spec.name
    if env.containedIn platformDir = false then
      ([], Except.error ("Platform directory resolves outside of job directory"))
    else
      let ev0 : List FsEvent := [FsEvent.mkdirEvent platformDir]
      let smartCrop := env.smartCropFor platformName
      match env.composeFor platformName beforePath afterPath smartCrop with
      | Except.error e => (ev0, Except.error e)
      | Except.ok imageResult =>
        let caption := env.captionFor platformName
        let ext := if spec.imageSpec.format = Format.jpeg then "jpg" else "png"
        let gifResult := if env.gifEnabled then env.gifFor beforePath afterPath else none
        let gifEvents : List FsEvent :=
          match gifResult with
          | some _ => [FsEvent.writeGif spec.name]
          | none => []
        let events :=
          ev0 ++ [FsEvent.writeImage spec.name, FsEvent.writeCaption spec.name] ++
            gifEvents ++ [FsEvent.writeManifest spec.name gifResult.isSome]
        (events,
         Except.ok
           { platform := spec.name
             imagePath := joinPath platformDir ("image." ++ ext)
             captionPath := joinPath platformDir "caption.txt"
             imageWidth := imageResult.width
             imageHeight := imageResult.height
             imageSizeBytes := imageResult.sizeBytes
             captionLength := caption.length
             transition := gifResult })

/-- The `for (const platformName of platforms)` loop of `runSocial`: platforms
are processed sequentially; an error thrown in one iteration propagates and
aborts the remaining iterations, keeping the events already performed. -/
def runSocialLoop (env : SocialEnv) (socialDir beforePath afterPath : String) :
    List String → List FsEvent × Except String (List SocialOutput)
  | [] => ([], Except.ok [])
  | p :: ps =>
    match processPlatform env socialDir beforePath afterPath p with
    | (events, Except.error e) => (events, Except.error e)
    | (events, Except.ok out) =>
      match runSocialLoop env socialDir beforePath afterPath ps with
      | (events2, Except.error e) => (events ++ events2, Except.error e)
      | (events2, Except.ok outs) => (events ++ events2, Except.ok (out :: outs))

/-- `runSocial` from the social layer entry point: R1 manifest precondition,
source path resolution from the first media pair, containment and existence
checks, then the per-platform loop. -/
def runSocial (env : SocialEnv) (jobDir : String) (platforms : List String) :
    List FsEvent × Except String (List SocialOutput) :=
  let outputDir := joinPath jobDir "output"
  let manifestPath := joinPath outputDir "manifest.json"
  match env.r1Manifest with
  | none =>
    ([], Except.error ("R1 manifest not found at " ++ manifestPath ++ ". Run workshot run first."))
  | some manifest =>
    match manifest.inputs.mediaPairs with
    | [] => ([], Except.error "R1 manifest has no media pairs.")
    | mediaPair :: _ =>
      let beforePath := joinPath outputDir mediaPair.before
      let afterPath := joinPath outputDir mediaPair.after
      if env.containedIn beforePath = false then
        ([], Except.error "Before image path resolves outside of job directory")
      else if env.containedIn afterPath = false then
        ([], Except.error "After image path resolves outside of job directory")
      else if env.fileExists beforePath = false then
        ([], Except.error ("Before image not found: " ++ beforePath))
      else if env.fileExists afterPath = false then
        ([], Except.error ("After image not found: " ++ afterPath))
      else
        let socialDir := joinPath outputDir "social"
        if env.containedIn socialDir = false then
          ([], Except.error "Social output directory resolves outside of job directory")
        else
          match runSocialLoop env socialDir beforePath afterPath platforms with
          | (events, res) => (FsEvent.mkdirEvent socialDir :: events, res)

/-- The write-ordering invariant of per-platform manifests: wherever a
manifest write appears in a trace, that platform's image and caption writes
appear earlier, and its transition write appears earlier whenever the manifest
records a transition block. -/
def ManifestAfterArtifacts (l : List FsEvent) : Prop :=
  ∀ (t1 t2 : List FsEvent) (p : String) (b : Bool),
    l = t1 ++ FsEvent.writeManifest p b :: t2 →
    FsEvent.writeImage p ∈ t1 ∧ FsEvent.writeCaption p ∈ t1 ∧
    (b = true → FsEvent.writeGif p ∈ t1)

/-- An upstream manifest with a single media pair. -/
def sampleManifest : R1Manifest :=
  { jobId := "job-001"
    inputs := { mediaPairs := [⟨"pair-1", "before.jpg", "after.jpg", "photo"⟩] } }

/-- Environment in which composing for nextdoor fails to decode the source
while composing for every other platform succeeds. -/
def envFail : SocialEnv :=
  { r1Manifest := some sampleManifest
    fileExists := fun _ => true
    containedIn := fun _ => true
    adapters := getAdapterSpec
    smartCropFor := fun _ => none
    composeFor := fun platformName _ _ _ =>
      if platformName = "nextdoor" then
        Except.error "Input file is missing or of an unsupported image format"
      else Except.ok ⟨1080, 1350, 2048⟩
    captionFor := fun _ => "Sample caption"
    gifEnabled := false
    gifFor := fun _ _ => none }

/-- Environment in which every collaborator succeeds and crossfade generation
is enabled. -/
def envOk : SocialEnv :=
  { r1Manifest := some sampleManifest
    fileExists := fun _ => true
    containedIn := fun _ => true
    adapters := getAdapterSpec
    smartCropFor := fun _ => none
    composeFor := fun _ _ _ _ => Except.ok ⟨1200, 675, 4096⟩
    captionFor := fun _ => "Sample caption"
    gifEnabled := true
    gifFor := fun _ _ => some ⟨5000, 22, 9100, 720, 540⟩ }

/-! ### Helper lemmas on the crop-advice validator -/

lemma getIntField_nonneg {crop : JVal} {key : String} {v : ℤ}
    (h : getIntField crop key = some v) : 0 ≤ v := by
  unfold getIntField at h
  split at h
  · next q heq =>
      split at h
      · next hcond =>
          obtain ⟨h1, h2⟩ := hcond
          obtain rfl : q.num = v := by injection h
          exact Rat.num_nonneg.mpr h2
      · exact Option.noConfusion h
  · exact Option.noConfusion h

lemma validateCropFields_fields {crop : JVal} {c : CropRegion}
    (h : validateCropFields crop = some c) :
    getIntField crop "left" = some c.left ∧ getIntField crop "top" = some c.top ∧
    getIntField crop "width" = some c.width ∧ getIntField crop "height" = some c.height ∧
    0 ≤ c.left ∧ 0 ≤ c.top ∧ 0 ≤ c.width ∧ 0 ≤ c.height := by
  unfold validateCropFields at h
  cases hl : getIntField crop "left" with
  | none => rw [hl] at h; exact Option.noConfusion h
  | some l =>
  rw [hl] at h
  cases ht : getIntField crop "top" with
  | none => rw [ht] at h; exact Option.noConfusion h
  | some t =>
  rw [ht] at h
  cases hw : getIntField crop "width" with
  | none => rw [hw] at h; exact Option.noConfusion h
  | some w =>
  rw [hw] at h
  cases hh : getIntField crop "height" with
  | none => rw [hh] at h; exact Option.noConfusion h
  | some hgt =>
  rw [hh] at h
  obtain ⟨cl, ct, cw, ch⟩ := c
  have h' : l = cl ∧ t = ct ∧ w = cw ∧ hgt = ch := by
    simpa [CropRegion.mk.injEq] using h
  obtain ⟨rfl, rfl, rfl, rfl⟩ := h'
  exact ⟨rfl, rfl, rfl, rfl, getIntField_nonneg hl, getIntField_nonneg ht,
    getIntField_nonneg hw, getIntField_nonneg hh⟩

lemma parseAndValidate_some_spec {p : JVal} {bw bh aw ah pw ph : ℤ} {r : SmartCropResult}
    (h : parseAndValidate (some p) bw bh aw ah pw ph = some r) :
    ∃ bc ac, p.getField "before" = some bc ∧ p.getField "after" = some ac ∧
      validateCropFields bc = some r.before ∧ validateCropFields ac = some r.after ∧
      r.before.width = pw ∧ r.before.height = ph ∧
      r.after.width = pw ∧ r.after.height = ph ∧
      r.before.left + r.before.width ≤ bw ∧ r.before.top + r.before.height ≤ bh ∧
      r.after.left + r.after.width ≤ aw ∧ r.after.top + r.after.height ≤ ah ∧
      checkAnchor (p.getField "before_trunk_base") bw bh r.before = some r.beforeTrunkBase ∧
      checkAnchor (p.getField "after_trunk_base") aw ah r.after = some r.afterTrunkBase := by
  simp only [parseAndValidate] at h
  split at h <;> try exact Option.noConfusion h
  next x1 x2 bc ac hbc hac =>
  split at h
  · exact Option.noConfusion h
  next htr =>
  split at h <;> try exact Option.noConfusion h
  next y1 y2 bcr acr hvb hva =>
  split at h
  · exact Option.noConfusion h
  next hd1 =>
  split at h
  · exact Option.noConfusion h
  next hd2 =>
  split at h
  · exact Option.noConfusion h
  next hd3 =>
  split at h
  · exact Option.noConfusion h
  next hd4 =>
  split at h <;> try exact Option.noConfusion h
  next z1 z2 bA aA hcb hca =>
  push_neg at hd1 hd2 hd3 hd4
  obtain ⟨rb, ra, rba, raa, rs⟩ := r
  have h' : bcr = rb ∧ acr = ra ∧ bA = rba ∧ aA = raa := by
    have := h
    simp only [Option.some.injEq, SmartCropResult.mk.injEq] at this
    exact ⟨this.1, this.2.1, this.2.2.1, this.2.2.2.1⟩
  obtain ⟨rfl, rfl, rfl, rfl⟩ := h'
  exact ⟨bc, ac, hbc, hac, hvb, hva, hd1.1, hd1.2, hd2.1, hd2.2,
    hd3.1, hd3.2, hd4.1, hd4.2, hcb, hca⟩

/-- C2: `parseAndValidate` returns a non-null result only if both rectangles
come from well-formed `before`/`after` crop objects with integer,
non-negative fields, have width exactly `panelWidth` and height exactly
`panelHeight`, and lie fully inside their respective source images;
by contraposition any violating, non-integer, negative or missing field
yields `null`. -/
theorem parseAndValidate_crop_geometry
    (p : JVal) (bw bh aw ah pw ph : ℤ) (r : SmartCropResult)
    (h : parseAndValidate (some p) bw bh aw ah pw ph = some r) :
    (∃ bc, p.getField "before" = some bc ∧ validateCropFields bc = some r.before) ∧
    (∃ ac, p.getField "after" = some ac ∧ validateCropFields ac = some r.after) ∧
    0 ≤ r.before.left ∧ 0 ≤ r.before.top ∧
    r.before.width = pw ∧ r.before.height = ph ∧
    r.before.left + r.before.width ≤ bw ∧ r.before.top + r.before.height ≤ bh ∧
    0 ≤ r.after.left ∧ 0 ≤ r.after.top ∧
    r.after.width = pw ∧ r.after.height = ph ∧
    r.after.left + r.after.width ≤ aw ∧ r.after.top + r.after.height ≤ ah := by
  obtain ⟨bc, ac, hbc, hac, hvb, hva, hw1, hh1, hw2, hh2, hc1, hc2, hc3, hc4, -, -⟩ :=
    parseAndValidate_some_spec h
  have hb := validateCropFields_fields hvb
  have ha := validateCropFields_fields hva
  exact ⟨⟨bc, hbc, hvb⟩, ⟨ac, hac, hva⟩, hb.2.2.2.2.1, hb.2.2.2.2.2.1, hw1, hh1, hc1, hc2,
    ha.2.2.2.2.1, ha.2.2.2.2.2.1, hw2, hh2, hc3, hc4⟩

/-- C2 witness: the geometry consequences at a concrete accepted response. -/
theorem parseAndValidate_crop_geometry_witness :
    (∃ bc, JVal.getField sampleCropResp "before" = some bc ∧
       validateCropFields bc = some sampleCropResult.before) ∧
    (∃ ac, JVal.getField sampleCropResp "after" = some ac ∧
       validateCropFields ac = some sampleCropResult.after) ∧
    0 ≤ sampleCropResult.before.left ∧ 0 ≤ sampleCropResult.before.top ∧
    sampleCropResult.before.width = 600 ∧ sampleCropResult.before.height = 675 ∧
    sampleCropResult.before.left + sampleCropResult.before.width ≤ 1200 ∧
    sampleCropResult.before.top + sampleCropResult.before.height ≤ 900 ∧
    0 ≤ sampleCropResult.after.left ∧ 0 ≤ sampleCropResult.after.top ∧
    sampleCropResult.after.width = 600 ∧ sampleCropResult.after.height = 675 ∧
    sampleCropResult.after.left + sampleCropResult.after.width ≤ 1000 ∧
    sampleCropResult.after.top + sampleCropResult.after.height ≤ 800 :=
  parseAndValidate_crop_geometry sampleCropResp 1200 900 1000 800 600 675
    sampleCropResult (by decide)

lemma checkCoord_sound {v : Option JVal} {maxv : ℤ} {x : ℤ}
    (h : checkCoord v maxv = some x) : 0 ≤ x ∧ x < maxv := by
  unfold checkCoord at h
  split at h
  · next o q =>
      split at h
      · next hc =>
          obtain ⟨h1, h2, h3⟩ := hc
          obtain rfl : q.num = x := by injection h
          refine ⟨Rat.num_nonneg.mpr h2, ?_⟩
          have hq : (q.num : ℚ) = q := (Rat.den_eq_one_iff q).mp h1
          have hlt : (q.num : ℚ) < (maxv : ℚ) := by rw [hq]; exact h3
          exact_mod_cast hlt
      · exact Option.noConfusion h
  · exact Option.noConfusion h

lemma validatePixelPoint_sound {v : JVal} {mx my : ℤ} {pt : PixelPoint}
    (h : validatePixelPoint v mx my = some pt) :
    0 ≤ pt.x ∧ pt.x < mx ∧ 0 ≤ pt.y ∧ pt.y < my := by
  unfold validatePixelPoint at h
  split at h
  · exact Option.noConfusion h
  · cases hx : checkCoord (v.getField "x") mx with
    | none => rw [hx] at h; exact Option.noConfusion h
    | some x =>
    rw [hx] at h
    cases hy : checkCoord (v.getField "y") my with
    | none => rw [hy] at h; exact Option.noConfusion h
    | some y =>
    rw [hy] at h
    obtain ⟨px, py⟩ := pt
    have h' : x = px ∧ y = py := by simpa [PixelPoint.mk.injEq] using h
    obtain ⟨rfl, rfl⟩ := h'
    obtain ⟨hx1, hx2⟩ := checkCoord_sound hx
    obtain ⟨hy1, hy2⟩ := checkCoord_sound hy
    exact ⟨hx1, hx2, hy1, hy2⟩

lemma checkAnchor_present {v : JVal} {mx my : ℤ} {crop : CropRegion}
    {res : Option PixelPoint}
    (h : checkAnchor (some v) mx my crop = some res) :
    ∃ pt, validatePixelPoint v mx my = some pt ∧
      isPointInsideCrop pt crop = true ∧ res = some pt := by
  simp only [checkAnchor] at h
  split at h
  · exact Option.noConfusion h
  · next pt hpt =>
    split at h
    · next hin =>
        refine ⟨pt, hpt, hin, ?_⟩
        injection h with h'
        exact h'.symm
    · exact Option.noConfusion h

/-- C3: a present anchor field is accepted only when it is an integer,
non-negative point strictly inside the source image bounds and inside its
paired crop rectangle under the half-open rule; an anchor exactly at the
rectangle's top-left corner is accepted and one at exactly `left + width` or
`top + height` rejects the entire response. -/
theorem parseAndValidate_anchor_rules :
    (∀ (p : JVal) (bw bh aw ah pw ph : ℤ) (r : SmartCropResult) (v : JVal),
       JVal.getField p "before_trunk_base" = some v →
       parseAndValidate (some p) bw bh aw ah pw ph = some r →
       ∃ pt, r.beforeTrunkBase = some pt ∧
         0 ≤ pt.x ∧ pt.x < bw ∧ 0 ≤ pt.y ∧ pt.y < bh ∧
         r.before.left ≤ pt.x ∧ pt.x < r.before.left + r.before.width ∧
         r.before.top ≤ pt.y ∧ pt.y < r.before.top + r.before.height) ∧
    (∀ (p : JVal) (bw bh aw ah pw ph : ℤ) (r : SmartCropResult) (v : JVal),
       JVal.getField p "after_trunk_base" = some v →
       parseAndValidate (some p) bw bh aw ah pw ph = some r →
       ∃ pt, r.afterTrunkBase = some pt ∧
         0 ≤ pt.x ∧ pt.x < aw ∧ 0 ≤ pt.y ∧ pt.y < ah ∧
         r.after.left ≤ pt.x ∧ pt.x < r.after.left + r.after.width ∧
         r.after.top ≤ pt.y ∧ pt.y < r.after.top + r.after.height) ∧
    parseAndValidate (some cornerAnchorResp) 1200 900 1000 800 600 675 =
      some cornerAnchorResult ∧
    parseAndValidate (some edgeAnchorRespX) 1200 900 1000 800 600 675 = none ∧
    parseAndValidate (some edgeAnchorRespY) 1200 900 1000 800 600 675 = none := by
  refine ⟨?_, ?_, by decide, by decide, by decide⟩
  · intro p bw bh aw ah pw ph r v hv h
    obtain ⟨-, -, -, -, -, -, -, -, -, -, -, -, -, -, hcb, -⟩ :=
      parseAndValidate_some_spec h
    rw [hv] at hcb
    obtain ⟨pt, hvp, hin, heq⟩ := checkAnchor_present hcb
    obtain ⟨h1, h2, h3, h4⟩ := validatePixelPoint_sound hvp
    have hins := of_decide_eq_true hin
    exact ⟨pt, heq, h1, h2, h3, h4, hins.1, hins.2.1, hins.2.2.1, hins.2.2.2⟩
  · intro p bw bh aw ah pw ph r v hv h
    obtain ⟨-, -, -, -, -, -, -, -, -, -, -, -, -, -, -, hca⟩ :=
      parseAndValidate_some_spec h
    rw [hv] at hca
    obtain ⟨pt, hvp, hin, heq⟩ := checkAnchor_present hca
    obtain ⟨h1, h2, h3, h4⟩ := validatePixelPoint_sound hvp
    have hins := of_decide_eq_true hin
    exact ⟨pt, heq, h1, h2, h3, h4, hins.1, hins.2.1, hins.2.2.1, hins.2.2.2⟩

/-- C3 witness: the anchor consequences at the corner-anchor response. -/
theorem parseAndValidate_anchor_rules_witness :
    ∃ pt, cornerAnchorResult.beforeTrunkBase = some pt ∧
      0 ≤ pt.x ∧ pt.x < 1200 ∧ 0 ≤ pt.y ∧ pt.y < 900 ∧
      cornerAnchorResult.before.left ≤ pt.x ∧
      pt.x < cornerAnchorResult.before.left + cornerAnchorResult.before.width ∧
      cornerAnchorResult.before.top ≤ pt.y ∧
      pt.y < cornerAnchorResult.before.top + cornerAnchorResult.before.height :=
  parseAndValidate_anchor_rules.1 cornerAnchorResp 1200 900 1000 800 600 675
    cornerAnchorResult (pointJson 100 50) rfl (by decide)

/-! ### Crossfade theorems -/

lemma zipWith_getElem?_some {α β γ : Type} (f : α → β → γ)
    (l1 : List α) (l2 : List β) (i : ℕ) (a : α) (b : β)
    (h1 : l1[i]? = some a) (h2 : l2[i]? = some b) :
    (List.zipWith f l1 l2)[i]? = some (f a b) := by
  induction l1 generalizing l2 i with
  | nil => simp at h1
  | cons x l1 ih =>
    cases l2 with
    | nil => simp at h2
    | cons y l2 =>
      cases i with
      | zero => simp_all
      | succ i => simpa using ih l2 i (by simpa using h1) (by simpa using h2)

/-- C6: the crossfade frame sequence is one held before frame, `N` blended
frames, then one held after frame, and in blended frame `i` (1 ≤ i ≤ N) every
channel value equals `round(before * (1 - α) + after * α)` with
`α = i / (N + 1)`. -/
theorem crossfade_frame_sequence
    (beforeData afterData : List ℕ) (N : ℕ)
    (hlen : beforeData.length = afterData.length)
    (hb : ∀ v ∈ beforeData, v < 256) (ha : ∀ v ∈ afterData, v < 256) :
    (buildFrames beforeData afterData N).length = N + 2 ∧
    (buildFrames beforeData afterData N).head? = some beforeData ∧
    (buildFrames beforeData afterData N).getLast? = some afterData ∧
    (∀ i, 1 ≤ i → i ≤ N →
      (buildFrames beforeData afterData N)[i]? =
        some (blendBuffers beforeData afterData i N)) ∧
    (∀ i j bv av : ℕ, 1 ≤ i → i ≤ N →
      beforeData[j]? = some bv → afterData[j]? = some av →
      ∃ c : ℕ, (blendBuffers beforeData afterData i N)[j]? = some c ∧
        (c : ℤ) =
          round ((bv : ℚ) * (1 - (i : ℚ) / ((N : ℚ) + 1)) +
                 (av : ℚ) * ((i : ℚ) / ((N : ℚ) + 1)))) := by
  refine ⟨?_, rfl, ?_, ?_, ?_⟩
  · simp [buildFrames]
  · exact List.getLast?_concat _
  · intro i h1 h2
    obtain ⟨j, rfl⟩ : ∃ j, i = j + 1 := ⟨i - 1, by omega⟩
    have hshape : buildFrames beforeData afterData N =
        beforeData ::
          ((List.range N).map
            (fun k => blendBuffers beforeData afterData (k + 1) N) ++ [afterData]) := by
      simp [buildFrames]
    rw [hshape]
    have hj : j < N := by omega
    rw [List.getElem?_cons_succ, List.getElem?_append]
    rw [if_pos (by simpa using hj)]
    simp [List.getElem?_range, hj]
  · intro i j bv av h1 h2 hbj haj
    have hz := zipWith_getElem?_some (fun b a => blendChannel b a i N)
      beforeData afterData j bv av hbj haj
    refine ⟨blendChannel bv av i N, hz, ?_⟩
    have hbv : (bv : ℚ) ≤ 255 := by
      have := hb bv (List.getElem?_mem hbj)
      exact_mod_cast Nat.lt_succ_iff.mp this
    have hav : (av : ℚ) ≤ 255 := by
      have := ha av (List.getElem?_mem haj)
      exact_mod_cast Nat.lt_succ_iff.mp this
    set alpha : ℚ := (i : ℚ) / ((N : ℚ) + 1) with halpha
    have hden : (0 : ℚ) < (N : ℚ) + 1 := by positivity
    have hα0 : 0 ≤ alpha := by positivity
    have hα1 : alpha ≤ 1 := by
      rw [halpha, div_le_one hden]
      have : (i : ℚ) ≤ (N : ℚ) := by exact_mod_cast h2
      linarith
    set e : ℚ := (bv : ℚ) * (1 - alpha) + (av : ℚ) * alpha with he
    have he0 : 0 ≤ e := by
      have h0b : (0 : ℚ) ≤ (bv : ℚ) := by positivity
      have h0a : (0 : ℚ) ≤ (av : ℚ) := by positivity
      have := mul_nonneg h0b (by linarith : (0 : ℚ) ≤ 1 - alpha)
      have := mul_nonneg h0a hα0
      rw [he]
      linarith
    have he255 : e ≤ 255 := by
      have t1 : (bv : ℚ) * (1 - alpha) ≤ 255 * (1 - alpha) :=
        mul_le_mul_of_nonneg_right hbv (by linarith)
      have t2 : (av : ℚ) * alpha ≤ 255 * alpha :=
        mul_le_mul_of_nonneg_right hav hα0
      rw [he]
      nlinarith
    have hr0 : 0 ≤ round e := by
      rw [round_eq]
      exact Int.le_floor.mpr (by push_cast; linarith)
    have hr256 : round e < 256 := by
      rw [round_eq]
      refine Int.floor_lt.mpr ?_
      push_cast
      linarith
    show ((blendChannel bv av i N : ℕ) : ℤ) = round e
    simp only [blendChannel]
    rw [← halpha, ← he, Int.emod_eq_of_lt hr0 hr256]
    exact Int.toNat_of_nonneg hr0

/-- C6 witness: the frame sequence facts at a concrete pair of buffers. -/
theorem crossfade_frame_sequence_witness :
    (buildFrames [0, 255] [255, 0] 3).length = 3 + 2 ∧
    (buildFrames [0, 255] [255, 0] 3).head? = some [0, 255] ∧
    (buildFrames [0, 255] [255, 0] 3).getLast? = some [255, 0] ∧
    (∀ i, 1 ≤ i → i ≤ 3 →
      (buildFrames [0, 255] [255, 0] 3)[i]? =
        some (blendBuffers [0, 255] [255, 0] i 3)) ∧
    (∀ i j bv av : ℕ, 1 ≤ i → i ≤ 3 →
      ([0, 255] : List ℕ)[j]? = some bv → ([255, 0] : List ℕ)[j]? = some av →
      ∃ c : ℕ, (blendBuffers [0, 255] [255, 0] i 3)[j]? = some c ∧
        (c : ℤ) =
          round ((bv : ℚ) * (1 - (i : ℚ) / (((3 : ℕ) : ℚ) + 1)) +
                 (av : ℚ) * ((i : ℚ) / (((3 : ℕ) : ℚ) + 1)))) :=
  crossfade_frame_sequence [0, 255] [255, 0] 3 rfl (by decide) (by decide)

/-- C7: with the default options the crossfade duration is
`holdBefore + holdAfter + frameCount * frameDelay = 9100` milliseconds, both
as the sum of the encoded per-frame delay list and as the fallback duration
formula. -/
theorem crossfade_default_duration :
    (buildDelays CROSSFADE_DEFAULTS).sum = 9100 ∧
    requestedDurationMs CROSSFADE_DEFAULTS = 9100 ∧
    CROSSFADE_DEFAULTS.holdBefore + CROSSFADE_DEFAULTS.holdAfter +
      CROSSFADE_DEFAULTS.frameCount * CROSSFADE_DEFAULTS.frameDelay = 9100 := by
  refine ⟨by decide, by decide, by decide⟩

/-! ### Compositor theorems -/

deriving instance DecidableEq for Except


lemma compositeOne_ok {base overlay : Dims} {l t : ℤ} {d : Dims}
    (h : compositeOne base overlay l t = Except.ok d) : d = base := by
  unfold compositeOne at h
  split at h
  · injection h with h'
    exact h'.symm
  · exact Except.noConfusion h

lemma except_bind_ok {ε α β : Type} {e : Except ε α} {f : α → Except ε β} {b : β}
    (h : e >>= f = Except.ok b) : ∃ a, e = Except.ok a ∧ f a = Except.ok b := by
  cases e with
  | error err =>
    simp only [bind, Except.bind] at h
    exact Except.noConfusion h
  | ok a =>
    simp only [bind, Except.bind] at h
    exact ⟨a, rfl, h⟩

lemma composeSocialImage_ok_spec {beforeDims afterDims logoDims : Dims}
    {spec : PlatformSpec} {crop : Option SmartCropResult} {r : ComposeOutcome}
    (h : composeSocialImage beforeDims afterDims logoDims spec crop = Except.ok r) :
    r.width = spec.imageSpec.width ∧ r.height = spec.imageSpec.height ∧
    r.canvas = ⟨spec.imageSpec.width, spec.imageSpec.height⟩ ∧
    r.beforePlacement.dims = ⟨r.panelWidth, r.panelHeight⟩ ∧
    r.afterPlacement.dims = ⟨r.panelWidth, r.panelHeight⟩ ∧
    r.beforePlacement.left = 0 ∧ r.beforePlacement.top = 0 ∧
    ((spec.layout = Layout.sideBySide ∧
        r.panelWidth = spec.imageSpec.width / 2 ∧
        r.panelHeight = spec.imageSpec.height ∧
        r.afterPlacement.left = (r.panelWidth : ℤ) ∧ r.afterPlacement.top = 0) ∨
     (spec.layout = Layout.stacked ∧
        r.panelWidth = spec.imageSpec.width ∧
        r.panelHeight = spec.imageSpec.height / 2 ∧
        r.afterPlacement.left = 0 ∧ r.afterPlacement.top = (r.panelHeight : ℤ))) := by
  cases hl : spec.layout with
  | sideBySide =>
    cases crop with
    | none =>
      simp only [composeSocialImage, hl, resizeDims, pure_bind] at h
      obtain ⟨bwl, hbwl, h⟩ := except_bind_ok h
      obtain ⟨awl, hawl, h⟩ := except_bind_ok h
      obtain ⟨c1, hc1, h⟩ := except_bind_ok h
      obtain ⟨c2, hc2, h⟩ := except_bind_ok h
      obtain ⟨c3, hc3, h⟩ := except_bind_ok h
      obtain rfl := compositeOne_ok hbwl
      obtain rfl := compositeOne_ok hawl
      obtain rfl := compositeOne_ok hc1
      obtain rfl := compositeOne_ok hc2
      obtain rfl := compositeOne_ok hc3
      simp only [pure, Except.pure] at h
      injection h with h2
      subst h2
      exact ⟨rfl, rfl, rfl, rfl, rfl, rfl, rfl, Or.inl ⟨rfl, rfl, rfl, rfl, rfl⟩⟩
    | some sc =>
      simp only [composeSocialImage, hl, resizeDims, pure_bind] at h
      obtain ⟨ex1, hex1, h⟩ := except_bind_ok h
      obtain ⟨ex2, hex2, h⟩ := except_bind_ok h
      obtain ⟨bwl, hbwl, h⟩ := except_bind_ok h
      obtain ⟨awl, hawl, h⟩ := except_bind_ok h
      obtain ⟨c1, hc1, h⟩ := except_bind_ok h
      obtain ⟨c2, hc2, h⟩ := except_bind_ok h
      obtain ⟨c3, hc3, h⟩ := except_bind_ok h
      obtain rfl := compositeOne_ok hbwl
      obtain rfl := compositeOne_ok hawl
      obtain rfl := compositeOne_ok hc1
      obtain rfl := compositeOne_ok hc2
      obtain rfl := compositeOne_ok hc3
      simp only [pure, Except.pure] at h
      injection h with h2
      subst h2
      exact ⟨rfl, rfl, rfl, rfl, rfl, rfl, rfl, Or.inl ⟨rfl, rfl, rfl, rfl, rfl⟩⟩
  | stacked =>
    cases crop with
    | none =>
      simp only [composeSocialImage, hl, resizeDims, pure_bind] at h
      obtain ⟨bwl, hbwl, h⟩ := except_bind_ok h
      obtain ⟨awl, hawl, h⟩ := except_bind_ok h
      obtain ⟨c1, hc1, h⟩ := except_bind_ok h
      obtain ⟨c2, hc2, h⟩ := except_bind_ok h
      obtain ⟨c3, hc3, h⟩ := except_bind_ok h
      obtain rfl := compositeOne_ok hbwl
      obtain rfl := compositeOne_ok hawl
      obtain rfl := compositeOne_ok hc1
      obtain rfl := compositeOne_ok hc2
      obtain rfl := compositeOne_ok hc3
      simp only [pure, Except.pure] at h
      injection h with h2
      subst h2
      exact ⟨rfl, rfl, rfl, rfl, rfl, rfl, rfl, Or.inr ⟨rfl, rfl, rfl, rfl, rfl⟩⟩
    | some sc =>
      simp only [composeSocialImage, hl, resizeDims, pure_bind] at h
      obtain ⟨ex1, hex1, h⟩ := except_bind_ok h
      obtain ⟨ex2, hex2, h⟩ := except_bind_ok h
      obtain ⟨bwl, hbwl, h⟩ := except_bind_ok h
      obtain ⟨awl, hawl, h⟩ := except_bind_ok h
      obtain ⟨c1, hc1, h⟩ := except_bind_ok h
      obtain ⟨c2, hc2, h⟩ := except_bind_ok h
      obtain ⟨c3, hc3, h⟩ := except_bind_ok h
      obtain rfl := compositeOne_ok hbwl
      obtain rfl := compositeOne_ok hawl
      obtain rfl := compositeOne_ok hc1
      obtain rfl := compositeOne_ok hc2
      obtain rfl := compositeOne_ok hc3
      simp only [pure, Except.pure] at h
      injection h with h2
      subst h2
      exact ⟨rfl, rfl, rfl, rfl, rfl, rfl, rfl, Or.inr ⟨rfl, rfl, rfl, rfl, rfl⟩⟩

/-- C4: for a registered platform spec and source images at least as large as
the panel, a successful `composeSocialImage` returns exactly the spec's
target dimensions. -/
theorem composeSocialImage_output_dims
    (spec : PlatformSpec) (hspec : spec = NEXTDOOR_SPEC ∨ spec = FACEBOOK_SPEC)
    (beforeDims afterDims logoDims : Dims) (crop : Option SmartCropResult)
    (r : ComposeOutcome)
    (hbw : panelWidthOf spec ≤ beforeDims.width)
    (hbh : panelHeightOf spec ≤ beforeDims.height)
    (haw : panelWidthOf spec ≤ afterDims.width)
    (hah : panelHeightOf spec ≤ afterDims.height)
    (h : composeSocialImage beforeDims afterDims logoDims spec crop = Except.ok r) :
    r.width = spec.imageSpec.width ∧ r.height = spec.imageSpec.height := by
  obtain ⟨h1, h2, -⟩ := composeSocialImage_ok_spec h
  exact ⟨h1, h2⟩

/-- C4 witness: a concrete successful Nextdoor composition. -/
theorem composeSocialImage_output_dims_witness :
    composeSampleOutcome.width = NEXTDOOR_SPEC.imageSpec.width ∧
    composeSampleOutcome.height = NEXTDOOR_SPEC.imageSpec.height :=
  composeSocialImage_output_dims NEXTDOOR_SPEC (Or.inl rfl)
    ⟨1200, 900⟩ ⟨1000, 800⟩ ⟨100, 50⟩ none composeSampleOutcome
    (by decide) (by decide) (by decide) (by decide)
    (by
      norm_num [composeSocialImage, NEXTDOOR_SPEC, resizeDims, compositeOne,
        LOGO_WIDTH_FRACTION, LOGO_MARGIN, round_eq, pure_bind, composeSampleOutcome]
      simp only [Int.reduceToNat]
      norm_num [bind, Except.bind, Functor.map, Except.map]
      all_goals decide)

/-- C5: the compositor derives panel dimensions from the layout (side-by-side
halves the target width, stacked halves the target height), places the before
panel at the origin and the after panel at `x = panelWidth` respectively
`y = panelHeight`, on a canvas of exactly the target dimensions. -/
theorem composeSocialImage_layout_placement
    (spec : PlatformSpec) (beforeDims afterDims logoDims : Dims)
    (crop : Option SmartCropResult) (r : ComposeOutcome)
    (h : composeSocialImage beforeDims afterDims logoDims spec crop = Except.ok r) :
    r.canvas = ⟨spec.imageSpec.width, spec.imageSpec.height⟩ ∧
    r.beforePlacement.dims = ⟨r.panelWidth, r.panelHeight⟩ ∧
    r.afterPlacement.dims = ⟨r.panelWidth, r.panelHeight⟩ ∧
    r.beforePlacement.left = 0 ∧ r.beforePlacement.top = 0 ∧
    (spec.layout = Layout.sideBySide →
      r.panelWidth = spec.imageSpec.width / 2 ∧
      r.panelHeight = spec.imageSpec.height ∧
      r.afterPlacement.left = (r.panelWidth : ℤ) ∧ r.afterPlacement.top = 0) ∧
    (spec.layout = Layout.stacked →
      r.panelWidth = spec.imageSpec.width ∧
      r.panelHeight = spec.imageSpec.height / 2 ∧
      r.afterPlacement.left = 0 ∧ r.afterPlacement.top = (r.panelHeight : ℤ)) := by
  obtain ⟨-, -, hc, hbd, had, hbl, hbt, hor⟩ := composeSocialImage_ok_spec h
  refine ⟨hc, hbd, had, hbl, hbt, ?_, ?_⟩
  · intro hside
    rcases hor with ⟨-, h1, h2, h3, h4⟩ | ⟨hst, -⟩
    · exact ⟨h1, h2, h3, h4⟩
    · rw [hside] at hst
      exact Layout.noConfusion hst
  · intro hstacked
    rcases hor with ⟨hsb, -⟩ | ⟨-, h1, h2, h3, h4⟩
    · rw [hstacked] at hsb
      exact Layout.noConfusion hsb
    · exact ⟨h1, h2, h3, h4⟩

/-- C5 witness: placements of a concrete stacked Facebook composition. -/
theorem composeSocialImage_layout_placement_witness :
    composeSampleStacked.canvas =
      (⟨FACEBOOK_SPEC.imageSpec.width, FACEBOOK_SPEC.imageSpec.height⟩ : Dims) ∧
    composeSampleStacked.beforePlacement.dims =
      (⟨composeSampleStacked.panelWidth, composeSampleStacked.panelHeight⟩ : Dims) ∧
    composeSampleStacked.afterPlacement.dims =
      (⟨composeSampleStacked.panelWidth, composeSampleStacked.panelHeight⟩ : Dims) ∧
    composeSampleStacked.beforePlacement.left = 0 ∧
    composeSampleStacked.beforePlacement.top = 0 ∧
    (FACEBOOK_SPEC.layout = Layout.sideBySide →
      composeSampleStacked.panelWidth = FACEBOOK_SPEC.imageSpec.width / 2 ∧
      composeSampleStacked.panelHeight = FACEBOOK_SPEC.imageSpec.height ∧
      composeSampleStacked.afterPlacement.left = (composeSampleStacked.panelWidth : ℤ) ∧
      composeSampleStacked.afterPlacement.top = 0) ∧
    (FACEBOOK_SPEC.layout = Layout.stacked →
      composeSampleStacked.panelWidth = FACEBOOK_SPEC.imageSpec.width ∧
      composeSampleStacked.panelHeight = FACEBOOK_SPEC.imageSpec.height / 2 ∧
      composeSampleStacked.afterPlacement.left = 0 ∧
      composeSampleStacked.afterPlacement.top = (composeSampleStacked.panelHeight : ℤ)) :=
  composeSocialImage_layout_placement FACEBOOK_SPEC
    ⟨1200, 900⟩ ⟨1000, 800⟩ ⟨100, 50⟩ none composeSampleStacked
    (by
      norm_num [composeSocialImage, FACEBOOK_SPEC, resizeDims, compositeOne,
        LOGO_WIDTH_FRACTION, LOGO_MARGIN, round_eq, pure_bind, composeSampleStacked]
      simp only [Int.reduceToNat]
      norm_num [bind, Except.bind, Functor.map, Except.map]
      all_goals decide)

/-! ### Smart-crop driver theorems -/

/-- C8: `getSmartCrop` resolves to `null` (its embedding is a total function
into `Option`, mirroring the catch-all `try`/`catch`) whenever no API key is
configured, the optional client cannot be loaded, or either source image is
smaller than the panel along either axis. -/
theorem getSmartCrop_short_circuit :
    (∀ (env : SmartCropEnv) (pw ph : ℕ), env.apiKey = none →
       getSmartCrop env pw ph = none) ∧
    (∀ (env : SmartCropEnv) (pw ph : ℕ), env.genaiAvailable = false →
       getSmartCrop env pw ph = none) ∧
    (∀ (env : SmartCropEnv) (pw ph : ℕ) (bdims adims : Dims),
       env.beforeMeta = Except.ok bdims → env.afterMeta = Except.ok adims →
       (bdims.width < pw ∨ bdims.height < ph ∨
        adims.width < pw ∨ adims.height < ph) →
       getSmartCrop env pw ph = none) := by
  refine ⟨?_, ?_, ?_⟩
  · intro env pw ph hk
    unfold getSmartCrop
    rw [hk]
  · intro env pw ph hg
    unfold getSmartCrop
    cases hk : env.apiKey with
    | none => rfl
    | some k => rw [hg]; rfl
  · intro env pw ph bdims adims hbm ham hsmall
    unfold getSmartCrop
    cases hk : env.apiKey with
    | none => rfl
    | some k =>
      cases hg : env.genaiAvailable with
      | false => rfl
      | true =>
        simp only [Bool.true_eq_false, if_false]
        rw [hbm, ham]
        simp only [if_pos hsmall]

/-- C8 witness: a concrete environment with no API key yields `null`. -/
theorem getSmartCrop_short_circuit_witness :
    getSmartCrop
      { apiKey := none
        genaiAvailable := true
        beforeMeta := Except.ok ⟨1200, 900⟩
        afterMeta := Except.ok ⟨1000, 800⟩
        geminiOutcome := Except.ok (some sampleCropResp) } 600 675 = none :=
  getSmartCrop_short_circuit.1
    { apiKey := none
      genaiAvailable := true
      beforeMeta := Except.ok ⟨1200, 900⟩
      afterMeta := Except.ok ⟨1000, 800⟩
      geminiOutcome := Except.ok (some sampleCropResp) } 600 675 rfl

/-! ### Orchestrator theorems -/

lemma processPlatform_r1_irrelevant (env : SocialEnv) (m : Option R1Manifest)
    (s b a p : String) :
    processPlatform { env with r1Manifest := m } s b a p =
      processPlatform env s b a p :=
  rfl

lemma runSocialLoop_r1_irrelevant (env : SocialEnv) (m : Option R1Manifest)
    (s b a : String) (ps : List String) :
    runSocialLoop { env with r1Manifest := m } s b a ps =
      runSocialLoop env s b a ps := by
  induction ps with
  | nil => rfl
  | cons p ps ih =>
    simp only [runSocialLoop, processPlatform_r1_irrelevant, ih]

/-- C10: `runSocial` resolves both source image paths exclusively from the
first entry of the upstream manifest's media-pair list (the result is
invariant under replacing every subsequent pair, and the resolved paths fed to
the loop come from the first pair); an empty list produces the error
"R1 manifest has no media pairs." and no platform output events. -/
theorem runSocial_first_media_pair :
    (∀ (env : SocialEnv) (jobDir : String) (platforms : List String)
       (jobId : String) (pair : MediaPair) (rest rest' : List MediaPair),
       runSocial { env with r1Manifest := some ⟨jobId, ⟨pair :: rest⟩⟩ } jobDir platforms =
         runSocial { env with r1Manifest := some ⟨jobId, ⟨pair :: rest'⟩⟩ } jobDir platforms) ∧
    (∀ (env : SocialEnv) (jobDir : String) (platforms : List String)
       (manifest : R1Manifest),
       env.r1Manifest = some manifest → manifest.inputs.mediaPairs = [] →
       runSocial env jobDir platforms =
         ([], Except.error "R1 manifest has no media pairs.")) ∧
    (∀ (env : SocialEnv) (jobDir : String) (platforms : List String)
       (manifest : R1Manifest) (pair : MediaPair) (rest : List MediaPair),
       env.r1Manifest = some manifest →
       manifest.inputs.mediaPairs = pair :: rest →
       env.containedIn (joinPath (joinPath jobDir "output") pair.before) = true →
       env.containedIn (joinPath (joinPath jobDir "output") pair.after) = true →
       env.fileExists (joinPath (joinPath jobDir "output") pair.before) = true →
       env.fileExists (joinPath (joinPath jobDir "output") pair.after) = true →
       env.containedIn (joinPath (joinPath jobDir "output") "social") = true →
       runSocial env jobDir platforms =
         (FsEvent.mkdirEvent (joinPath (joinPath jobDir "output") "social") ::
           (runSocialLoop env (joinPath (joinPath jobDir "output") "social")
             (joinPath (joinPath jobDir "output") pair.before)
             (joinPath (joinPath jobDir "output") pair.after) platforms).1,
          (runSocialLoop env (joinPath (joinPath jobDir "output") "social")
             (joinPath (joinPath jobDir "output") pair.before)
             (joinPath (joinPath jobDir "output") pair.after) platforms).2)) := by
  refine ⟨?_, ?_, ?_⟩
  · intro env jobDir platforms jobId pair rest rest'
    simp only [runSocial, runSocialLoop_r1_irrelevant]
  · intro env jobDir platforms manifest he hpairs
    simp only [runSocial, he, hpairs]
  · intro env jobDir platforms manifest pair rest he hpairs hc1 hc2 hf1 hf2 hc3
    rcases hloop : runSocialLoop env (joinPath (joinPath jobDir "output") "social")
        (joinPath (joinPath jobDir "output") pair.before)
        (joinPath (joinPath jobDir "output") pair.after) platforms with ⟨evs, res⟩
    simp only [runSocial, he, hpairs, hc1, hc2, hf1, hf2, hc3, hloop]
    simp

/-- C10 witness: the first-pair characterization at a concrete environment. -/
theorem runSocial_first_media_pair_witness :
    runSocial envOk "job" ["nextdoor"] =
      (FsEvent.mkdirEvent (joinPath (joinPath "job" "output") "social") ::
        (runSocialLoop envOk (joinPath (joinPath "job" "output") "social")
          (joinPath (joinPath "job" "output") "before.jpg")
          (joinPath (joinPath "job" "output") "after.jpg") ["nextdoor"]).1,
       (runSocialLoop envOk (joinPath (joinPath "job" "output") "social")
          (joinPath (joinPath "job" "output") "before.jpg")
          (joinPath (joinPath "job" "output") "after.jpg") ["nextdoor"]).2) :=
  runSocial_first_media_pair.2.2 envOk "job" ["nextdoor"] sampleManifest
    ⟨"pair-1", "before.jpg", "after.jpg", "photo"⟩ [] rfl rfl rfl rfl rfl rfl rfl

lemma runSocialLoop_cons_ok {env : SocialEnv} {s b a q : String}
    {evq : List FsEvent} {out : SocialOutput} (qs : List String)
    (h : processPlatform env s b a q = (evq, Except.ok out)) :
    (runSocialLoop env s b a (q :: qs)).1 = evq ++ (runSocialLoop env s b a qs).1 := by
  rcases hlp : runSocialLoop env s b a qs with ⟨evs2, res2⟩
  cases res2 with
  | error e => simp only [runSocialLoop, h, hlp]
  | ok outs => simp only [runSocialLoop, h, hlp]

lemma processPlatform_error_events {env : SocialEnv} {s b a p : String}
    {events : List FsEvent} {e : String}
    (h : processPlatform env s b a p = (events, Except.error e)) :
    events = [] ∨ ∃ d, events = [FsEvent.mkdirEvent d] := by
  unfold processPlatform at h
  cases hadapt : env.adapters p with
  | none =>
    simp only [hadapt] at h
    injection h with h1 h2
    exact Or.inl h1.symm
  | some spec =>
    simp only [hadapt] at h
    by_cases hcont : env.containedIn (joinPath s spec.name) = false
    · rw [if_pos hcont] at h
      injection h with h1 h2
      exact Or.inl h1.symm
    · rw [if_neg hcont] at h
      cases hcomp : env.composeFor p b a (env.smartCropFor p) with
      | error e2 =>
        simp only [hcomp] at h
        injection h with h1 h2
        exact Or.inr ⟨joinPath s spec.name, h1.symm⟩
      | ok img =>
        simp only [hcomp] at h
        injection h with h1 h2
        exact Except.noConfusion h2

/-- C1 counterexample: with a two-platform list in which composing for the
first platform (nextdoor) fails to decode the source, the whole run aborts —
the second platform (facebook) gets no image, no caption and no manifest, so
one platform's failure does abort the other platforms' processing. -/
theorem runSocial_platform_isolation_cex :
    runSocial envFail "job" ["nextdoor", "facebook"] =
      ([FsEvent.mkdirEvent "job/output/social",
        FsEvent.mkdirEvent "job/output/social/nextdoor"],
       Except.error "Input file is missing or of an unsupported image format") ∧
    FsEvent.writeImage "facebook" ∉ (runSocial envFail "job" ["nextdoor", "facebook"]).1 ∧
    FsEvent.writeCaption "facebook" ∉ (runSocial envFail "job" ["nextdoor", "facebook"]).1 ∧
    FsEvent.writeManifest "facebook" false ∉ (runSocial envFail "job" ["nextdoor", "facebook"]).1 ∧
    FsEvent.writeManifest "facebook" true ∉ (runSocial envFail "job" ["nextdoor", "facebook"]).1 ∧
    FsEvent.writeManifest "nextdoor" false ∉ (runSocial envFail "job" ["nextdoor", "facebook"]).1 ∧
    FsEvent.writeManifest "nextdoor" true ∉ (runSocial envFail "job" ["nextdoor", "facebook"]).1 := by
  refine ⟨by decide, ?_, ?_, ?_, ?_, ?_, ?_⟩ <;> decide

/-- C1 (amended): a failure while processing one platform leaves the already
completed platforms' writes in place and writes no manifest for the failing
platform, but aborts the run: the platforms after the failing one are never
processed and contribute no events. -/
theorem runSocial_failure_aborts_remaining
    (env : SocialEnv) (socialDir beforePath afterPath : String)
    (done : List String) (p : String) (ps : List String)
    (events : List FsEvent) (e : String)
    (hdone : ∀ q ∈ done, ∃ evq out,
      processPlatform env socialDir beforePath afterPath q = (evq, Except.ok out))
    (hfail : processPlatform env socialDir beforePath afterPath p =
      (events, Except.error e)) :
    runSocialLoop env socialDir beforePath afterPath (done ++ p :: ps) =
      ((runSocialLoop env socialDir beforePath afterPath done).1 ++ events,
       Except.error e) ∧
    ∀ (q : String) (c : Bool), FsEvent.writeManifest q c ∉ events := by
  constructor
  · induction done with
    | nil =>
      simp only [List.nil_append, runSocialLoop, hfail]
    | cons q qs ih =>
      obtain ⟨evq, out, hq⟩ := hdone q (List.mem_cons_self q qs)
      have ih' := ih (fun r hr => hdone r (List.mem_cons_of_mem q hr))
      simp only [List.cons_append, runSocialLoop, List.append_eq, hq, ih']
      rcases hlq : runSocialLoop env socialDir beforePath afterPath qs with ⟨evsq, resq⟩
      simp only [hlq]
      cases resq <;> simp [List.append_assoc]
  · intro q c hmem
    rcases processPlatform_error_events hfail with rfl | ⟨d, rfl⟩
    · simp at hmem
    · simp at hmem

/-- C1 witness: with facebook succeeding first and nextdoor failing, the loop
keeps facebook's writes, appends only nextdoor's partial events, and aborts. -/
theorem runSocial_failure_aborts_remaining_witness :
    runSocialLoop envFail "job/output/social" "job/output/before.jpg"
        "job/output/after.jpg" (["facebook"] ++ "nextdoor" :: []) =
      ((runSocialLoop envFail "job/output/social" "job/output/before.jpg"
          "job/output/after.jpg" ["facebook"]).1 ++
         [FsEvent.mkdirEvent "job/output/social/nextdoor"],
       Except.error "Input file is missing or of an unsupported image format") := by
  refine (runSocial_failure_aborts_remaining envFail "job/output/social"
    "job/output/before.jpg" "job/output/after.jpg" ["facebook"] "nextdoor" []
    [FsEvent.mkdirEvent "job/output/social/nextdoor"]
    "Input file is missing or of an unsupported image format" ?_ ?_).1
  · intro q hq
    have hq' : q = "facebook" := by simpa using hq
    subst hq'
    refine ⟨[FsEvent.mkdirEvent "job/output/social/facebook",
             FsEvent.writeImage "facebook", FsEvent.writeCaption "facebook",
             FsEvent.writeManifest "facebook" false],
            { platform := "facebook"
              imagePath := "job/output/social/facebook/image.jpg"
              captionPath := "job/output/social/facebook/caption.txt"
              imageWidth := 1080
              imageHeight := 1350
              imageSizeBytes := 2048
              captionLength := 14
              transition := none }, ?_⟩
    decide
  · decide

/-! ### Manifest-ordering lemmas -/

lemma maa_nil : ManifestAfterArtifacts [] := by
  intro t1 t2 p b h
  exact absurd h (by simp)

lemma maa_of_no_manifest {l : List FsEvent}
    (h : ∀ (p : String) (b : Bool), FsEvent.writeManifest p b ∉ l) :
    ManifestAfterArtifacts l := by
  intro t1 t2 p b heq
  exact absurd (heq ▸ List.mem_append_right t1 (List.mem_cons_self _ _)) (h p b)

lemma maa_append {l1 l2 : List FsEvent}
    (h1 : ManifestAfterArtifacts l1) (h2 : ManifestAfterArtifacts l2) :
    ManifestAfterArtifacts (l1 ++ l2) := by
  intro t1 t2 p b heq
  rcases List.append_eq_append_iff.mp heq with ⟨u, hu1, hu2⟩ | ⟨v, hv1, hv2⟩
  · obtain ⟨m1, m2, m3⟩ := h2 u t2 p b hu2
    subst hu1
    exact ⟨List.mem_append_right l1 m1, List.mem_append_right l1 m2,
      fun hb => List.mem_append_right l1 (m3 hb)⟩
  · cases v with
    | nil =>
      simp only [List.nil_append] at hv2
      obtain ⟨m1, -, -⟩ := h2 [] t2 p b hv2.symm
      exact absurd m1 (by simp)
    | cons x v =>
      simp only [List.cons_append] at hv2
      injection hv2 with hx ht2
      subst hx
      exact h1 t1 v p b (by rw [hv1])

lemma maa_cons_mkdir {l : List FsEvent} (d : String)
    (h : ManifestAfterArtifacts l) :
    ManifestAfterArtifacts (FsEvent.mkdirEvent d :: l) := by
  intro t1 t2 p b heq
  cases t1 with
  | nil => simp at heq
  | cons x t1 =>
    simp only [List.cons_append] at heq
    injection heq with hx hrest
    obtain ⟨m1, m2, m3⟩ := h t1 t2 p b hrest
    exact ⟨List.mem_cons_of_mem x m1, List.mem_cons_of_mem x m2,
      fun hb => List.mem_cons_of_mem x (m3 hb)⟩

lemma maa_block_noGif (d s : String) :
    ManifestAfterArtifacts
      [FsEvent.mkdirEvent d, FsEvent.writeImage s, FsEvent.writeCaption s,
       FsEvent.writeManifest s false] := by
  intro t1 t2 p b heq
  rcases t1 with _ | ⟨e1, _ | ⟨e2, _ | ⟨e3, _ | ⟨e4, t⟩⟩⟩⟩ <;> simp_all
  obtain ⟨rfl, rfl, rfl, ⟨rfl, rfl⟩, rfl⟩ := heq
  simp

lemma maa_block_gif (d s : String) :
    ManifestAfterArtifacts
      [FsEvent.mkdirEvent d, FsEvent.writeImage s, FsEvent.writeCaption s,
       FsEvent.writeGif s, FsEvent.writeManifest s true] := by
  intro t1 t2 p b heq
  rcases t1 with _ | ⟨e1, _ | ⟨e2, _ | ⟨e3, _ | ⟨e4, _ | ⟨e5, t⟩⟩⟩⟩⟩ <;> simp_all
  obtain ⟨rfl, rfl, rfl, rfl, ⟨rfl, rfl⟩, rfl⟩ := heq
  simp

lemma processPlatform_maa (env : SocialEnv) (s b a p : String) :
    ManifestAfterArtifacts (processPlatform env s b a p).1 := by
  rcases hadapt : env.adapters p with _ | spec
  · simp only [processPlatform, hadapt]
    exact maa_nil
  · by_cases hcont : env.containedIn (joinPath s spec.name) = false
    · simp only [processPlatform, hadapt, if_pos hcont]
      exact maa_nil
    · rcases hcomp : env.composeFor p b a (env.smartCropFor p) with e | img
      · simp only [processPlatform, hadapt, if_neg hcont, hcomp]
        exact maa_of_no_manifest (by intro p' b'; simp)
      · rcases hgif : (if env.gifEnabled = true then env.gifFor b a else none) with _ | g
        · simp only [processPlatform, hadapt, if_neg hcont, hcomp, hgif,
            Option.isSome_none, List.append_nil]
          simpa using maa_block_noGif (joinPath s spec.name) spec.name
        · simp only [processPlatform, hadapt, if_neg hcont, hcomp, hgif,
            Option.isSome_some]
          simpa using maa_block_gif (joinPath s spec.name) spec.name

lemma runSocialLoop_maa (env : SocialEnv) (s b a : String) (ps : List String) :
    ManifestAfterArtifacts (runSocialLoop env s b a ps).1 := by
  induction ps with
  | nil => exact maa_nil
  | cons p ps ih =>
    have hp := processPlatform_maa env s b a p
    rcases hpp : processPlatform env s b a p with ⟨evs, res⟩
    rw [hpp] at hp
    cases res with
    | error e => simp only [runSocialLoop, hpp]; exact hp
    | ok out =>
      rcases hlp : runSocialLoop env s b a ps with ⟨evs2, res2⟩
      rw [hlp] at ih
      cases res2 with
      | error e =>
        simp only [runSocialLoop, hpp, hlp]
        exact maa_append hp ih
      | ok outs =>
        simp only [runSocialLoop, hpp, hlp]
        exact maa_append hp ih

lemma runSocial_maa (env : SocialEnv) (jobDir : String) (platforms : List String) :
    ManifestAfterArtifacts (runSocial env jobDir platforms).1 := by
  rcases hm : env.r1Manifest with _ | manifest
  · simp only [runSocial, hm]
    exact maa_nil
  · rcases hps : manifest.inputs.mediaPairs with _ | ⟨pair, rest⟩
    · simp only [runSocial, hm, hps]
      exact maa_nil
    · by_cases h1 : env.containedIn (joinPath (joinPath jobDir "output") pair.before) = false
      · simp only [runSocial, hm, hps, if_pos h1]
        exact maa_nil
      · by_cases h2 : env.containedIn (joinPath (joinPath jobDir "output") pair.after) = false
        · simp only [runSocial, hm, hps, if_neg h1, if_pos h2]
          exact maa_nil
        · by_cases h3 : env.fileExists (joinPath (joinPath jobDir "output") pair.before) = false
          · simp only [runSocial, hm, hps, if_neg h1, if_neg h2, if_pos h3]
            exact maa_nil
          · by_cases h4 : env.fileExists (joinPath (joinPath jobDir "output") pair.after) = false
            · simp only [runSocial, hm, hps, if_neg h1, if_neg h2, if_neg h3, if_pos h4]
              exact maa_nil
            · by_cases h5 : env.containedIn (joinPath (joinPath jobDir "output") "social") = false
              · simp only [runSocial, hm, hps, if_neg h1, if_neg h2, if_neg h3, if_neg h4,
                  if_pos h5]
                exact maa_nil
              · rcases hlp : runSocialLoop env (joinPath (joinPath jobDir "output") "social")
                    (joinPath (joinPath jobDir "output") pair.before)
                    (joinPath (joinPath jobDir "output") pair.after) platforms with ⟨evs, res⟩
                have hml := runSocialLoop_maa env (joinPath (joinPath jobDir "output") "social")
                  (joinPath (joinPath jobDir "output") pair.before)
                  (joinPath (joinPath jobDir "output") pair.after) platforms
                rw [hlp] at hml
                simp only [runSocial, hm, hps, if_neg h1, if_neg h2, if_neg h3, if_neg h4,
                  if_neg h5, hlp]
                exact maa_cons_mkdir _ hml

/-- C9: wherever a per-platform manifest write appears in the trace of a run,
that platform's image and caption writes appear strictly earlier, and — when
the manifest records a transition — so does the transition write; moreover a
platform iteration that fails never emits a manifest write at all. -/
theorem manifest_written_after_artifacts :
    (∀ (env : SocialEnv) (jobDir : String) (platforms : List String)
       (t1 t2 : List FsEvent) (p : String) (b : Bool),
       (runSocial env jobDir platforms).1 = t1 ++ FsEvent.writeManifest p b :: t2 →
       FsEvent.writeImage p ∈ t1 ∧ FsEvent.writeCaption p ∈ t1 ∧
       (b = true → FsEvent.writeGif p ∈ t1)) ∧
    (∀ (env : SocialEnv) (s b a p : String) (events : List FsEvent) (e : String),
       processPlatform env s b a p = (events, Except.error e) →
       ∀ (q : String) (c : Bool), FsEvent.writeManifest q c ∉ events) := by
  constructor
  · intro env jobDir platforms t1 t2 p b hsplit
    exact runSocial_maa env jobDir platforms t1 t2 p b hsplit
  · intro env s b a p events e h q c hmem
    rcases processPlatform_error_events h with rfl | ⟨d, rfl⟩
    · simp at hmem
    · simp at hmem

/-- C9 witness: the ordering facts at a concrete successful run with the
crossfade enabled. -/
theorem manifest_written_after_artifacts_witness :
    FsEvent.writeImage "nextdoor" ∈
      [FsEvent.mkdirEvent "job/output/social",
       FsEvent.mkdirEvent "job/output/social/nextdoor",
       FsEvent.writeImage "nextdoor", FsEvent.writeCaption "nextdoor",
       FsEvent.writeGif "nextdoor"] ∧
    FsEvent.writeCaption "nextdoor" ∈
      [FsEvent.mkdirEvent "job/output/social",
       FsEvent.mkdirEvent "job/output/social/nextdoor",
       FsEvent.writeImage "nextdoor", FsEvent.writeCaption "nextdoor",
       FsEvent.writeGif "nextdoor"] ∧
    (true = true → FsEvent.writeGif "nextdoor" ∈
      [FsEvent.mkdirEvent "job/output/social",
       FsEvent.mkdirEvent "job/output/social/nextdoor",
       FsEvent.writeImage "nextdoor", FsEvent.writeCaption "nextdoor",
       FsEvent.writeGif "nextdoor"]) :=
  manifest_written_after_artifacts.1 envOk "job" ["nextdoor"]
    [FsEvent.mkdirEvent "job/output/social",
     FsEvent.mkdirEvent "job/output/social/nextdoor",
     FsEvent.writeImage "nextdoor", FsEvent.writeCaption "nextdoor",
     FsEvent.writeGif "nextdoor"] [] "nextdoor" true (by decide)

end WorkShot
